import Mathlib

/-!
Verification of the session store (`SessionManager` in
`app/services/session_manager.py`) and the SSE chat-turn driver
(`generate_response` / `chat_stream` in `app/api/v1/chat/endpoints.py`)
of the foodie repository.

Modelling conventions:
* Session ids are strings.  `uuid.uuid4()` is modelled as an injective
  fresh-id source driven by a counter `nextId` carried in the manager
  (UUIDs never repeat and never collide with previously issued ids;
  freshness with respect to caller-chosen unknown ids is taken as an
  explicit hypothesis where a claim needs it).
* The `llama_index` `Memory` object and the chat engine are opaque
  handles, modelled as natural numbers; `rag_service.create_chat_engine`
  wraps the memory handle.
* Wall-clock `time.time()` is an integer parameter `now` passed to each
  operation that reads the clock.
* The Python `dict` is an association list; `d[k] = v` is modelled by
  `insertSession` (cons after erasing the key), `del d[k]` by
  `eraseSession`, membership/lookup by `lookupSession`.
* The process-wide lock serialises store operations, so each store
  method is a pure state transformer.  Concurrent interference on the
  shared store during a chat turn (e.g. an abort request landing
  between two polls of the abort flag) is modelled by an adversarial
  function `intf` applied to the store at every suspension/poll point.
* The Answer Engine call `chat_engine.chat(message)` is an external
  collaborator: its outcome is a parameter `engine : Except String String`
  (`.ok answer` for a returned answer string, `.error e` for a raised
  exception with `str(e) = e`).
-/

namespace Foodie

/-- One session record, mirroring the dict literal built in
`SessionManager.create_session`. -/
structure Session where
  memory : Nat
  chat_engine : Option Nat
  created_at : Int
  last_access : Int
  is_aborted : Bool
  is_processing : Bool
  deriving Repr, DecidableEq

/-- Python's whitespace test used by `str.split()` / `str.strip()`. -/
def isSpace (c : Char) : Bool :=
  c = ' ' || c = '\t' || c = '\n' || c = '\r' || c = '\x0b' || c = '\x0c'

/-- Helper for `pySplit`: walk the characters, accumulating the current
word (reversed) in `acc`; a whitespace character flushes the word. -/
def pySplitAux : List Char → List Char → List String
  | [], acc => if acc.isEmpty then [] else [String.mk acc.reverse]
  | c :: cs, acc =>
    if isSpace c then
      if acc.isEmpty then pySplitAux cs []
      else String.mk acc.reverse :: pySplitAux cs []
    else pySplitAux cs (c :: acc)

/-- Python `str.split()` with no separator: split on runs of whitespace,
discarding empty pieces. -/
def pySplit (s : String) : List String := pySplitAux s.data []

/-- Python `str.strip()`: remove leading and trailing whitespace. -/
def pyStrip (s : String) : String :=
  String.mk (((s.data.dropWhile isSpace).reverse.dropWhile isSpace).reverse)

/-- Association-list lookup modelling `self.sessions.get(sid)` /
`sid in self.sessions`. -/
def lookupSession (l : List (String × Session)) (k : String) : Option Session :=
  (l.find? (fun p => p.1 = k)).map Prod.snd

/-- `del self.sessions[k]`. -/
def eraseSession (l : List (String × Session)) (k : String) : List (String × Session) :=
  l.filter (fun p => p.1 ≠ k)

/-- `self.sessions[k] = v`. -/
def insertSession (l : List (String × Session)) (k : String) (v : Session) :
    List (String × Session) :=
  (k, v) :: eraseSession l k

/-- The `SessionManager` state: the dict of sessions, the configured
timeout, and the counter driving the fresh-UUID source. -/
structure SessionManager where
  sessions : List (String × Session)
  session_timeout : Int
  nextId : Nat
  deriving Repr, DecidableEq

/-- Fresh session id issued for counter value `n`; models `str(uuid.uuid4())`
as an injective source of nonempty strings. -/
def freshId (n : Nat) : String := String.mk (List.replicate (n + 1) 'u')

/-- `SessionManager.create_session`: issue a fresh id and insert a new
record with a fresh memory handle, no engine, both timestamps `now`,
and both flags false. -/
def create_session (st : SessionManager) (now : Int) : String × SessionManager :=
  let sid := freshId st.nextId
  (sid,
   { st with
     sessions := insertSession st.sessions sid
        { memory := st.nextId
          chat_engine := none
          created_at := now
          last_access := now
          is_aborted := false
          is_processing := false }
     nextId := st.nextId + 1 })

/-- `SessionManager.get_session`: return the record after touching
`last_access`, or `None` when absent. -/
def get_session (st : SessionManager) (sid : String) (now : Int) :
    Option Session × SessionManager :=
  match lookupSession st.sessions sid with
  | none => (none, st)
  | some sess =>
    let sess2 := { sess with last_access := now }
    (some sess2, { st with sessions := insertSession st.sessions sid sess2 })

/-- `SessionManager.get_or_create_memory`: the session's memory when it
exists; otherwise silently create a new session (under a new id) and
return that session's memory. -/
def get_or_create_memory (st : SessionManager) (sid : String) (now : Int) :
    Option Nat × SessionManager :=
  match get_session st sid now with
  | (some sess, st2) => (some sess.memory, st2)
  | (none, st2) =>
    let r := create_session st2 now
    match get_session r.2 r.1 now with
    | (some sess, st3) => (some sess.memory, st3)
    | (none, st3) => (none, st3)

/-- `SessionManager.set_chat_engine`. -/
def set_chat_engine (st : SessionManager) (sid : String) (engine : Nat) :
    SessionManager :=
  match lookupSession st.sessions sid with
  | none => st
  | some sess =>
    { st with sessions := insertSession st.sessions sid { sess with chat_engine := some engine } }

/-- `SessionManager.get_chat_engine`: goes through `get_session`, hence
touches `last_access`. -/
def get_chat_engine (st : SessionManager) (sid : String) (now : Int) :
    Option Nat × SessionManager :=
  match get_session st sid now with
  | (some sess, st2) => (sess.chat_engine, st2)
  | (none, st2) => (none, st2)

/-- `SessionManager.cleanup_expired_sessions`: drop every session with
`now - last_access > session_timeout`; return how many were dropped. -/
def cleanup_expired_sessions (st : SessionManager) (now : Int) :
    Nat × SessionManager :=
  let expired := st.sessions.filter (fun p => now - p.2.last_access > st.session_timeout)
  (expired.length,
   { st with sessions := st.sessions.filter (fun p => ¬ now - p.2.last_access > st.session_timeout) })

/-- `SessionManager.get_session_count`. -/
def get_session_count (st : SessionManager) : Nat := st.sessions.length

/-- `SessionManager.delete_session`. -/
def delete_session (st : SessionManager) (sid : String) : Bool × SessionManager :=
  match lookupSession st.sessions sid with
  | some _ => (true, { st with sessions := eraseSession st.sessions sid })
  | none => (false, st)

/-- `SessionManager.abort_session`: set `is_aborted` when the session
exists; report whether it did. -/
def abort_session (st : SessionManager) (sid : String) : Bool × SessionManager :=
  match lookupSession st.sessions sid with
  | some sess =>
    (true, { st with sessions := insertSession st.sessions sid { sess with is_aborted := true } })
  | none => (false, st)

/-- `SessionManager.is_session_aborted`: reads the flag directly from the
dict (not via `get_session`); the store is returned unchanged. -/
def is_session_aborted (st : SessionManager) (sid : String) : Bool × SessionManager :=
  match lookupSession st.sessions sid with
  | some sess => (sess.is_aborted, st)
  | none => (false, st)

/-- `SessionManager.reset_session_abort`. -/
def reset_session_abort (st : SessionManager) (sid : String) : Bool × SessionManager :=
  match lookupSession st.sessions sid with
  | some sess =>
    (true, { st with sessions := insertSession st.sessions sid { sess with is_aborted := false } })
  | none => (false, st)

/-- `SessionManager.set_processing_status`. -/
def set_processing_status (st : SessionManager) (sid : String) (b : Bool) :
    Bool × SessionManager :=
  match lookupSession st.sessions sid with
  | some sess =>
    (true, { st with sessions := insertSession st.sessions sid { sess with is_processing := b } })
  | none => (false, st)

/-- `SessionManager.is_session_processing`: reads the flag directly from
the dict (not via `get_session`); the store is returned unchanged. -/
def is_session_processing (st : SessionManager) (sid : String) : Bool × SessionManager :=
  match lookupSession st.sessions sid with
  | some sess => (sess.is_processing, st)
  | none => (false, st)

/-! ## The SSE chat-turn driver (`endpoints.py`) -/

/-- One SSE event, keyed by its JSON `type` field; `content` and `error`
carry the payload the claims talk about, `session_id` carries the id. -/
inductive Ev where
  | session_id (sid : String)
  | start
  | content (text : String)
  | done
  | aborted
  | error (msg : String)
  deriving Repr, DecidableEq

/-- Adversarial interference: at the k-th suspension/poll point of a
turn, concurrent requests may have transformed the shared store
arbitrarily.  `intfNone` is the quiescent schedule (no interference). -/
def intfNone : Nat → SessionManager → SessionManager := fun _ st => st

/-- The `finally:` block of `generate_response`: clear the processing
flag, whatever terminal state was reached. -/
def finishTurn (evs : List Ev) (st : SessionManager) (sid : String) :
    List Ev × SessionManager :=
  (evs, (set_processing_status st sid false).2)

/-- The token loop of `generate_response` (`for i, word in enumerate(words)`)
followed by the `done` emission: poll the abort flag before each token;
append `word + " "` to the running buffer; emit the stripped buffer
every 5th token and on the last token (`(i+1) % 5 == 0 or i == len(words)-1`).
`n` is `len(words)` of the full token list, `i` the current index. -/
def emitChunks (sid : String) (ws : List String) (i n : Nat) (curr : String)
    (st : SessionManager) (intf : Nat → SessionManager → SessionManager) :
    List Ev × SessionManager :=
  match ws with
  | [] => ([Ev.done], st)
  | w :: rest =>
    let st1 := intf (2 + i) st
    let ab := is_session_aborted st1 sid
    if ab.1 then ([Ev.aborted], ab.2)
    else
      let curr2 := curr ++ w ++ " "
      let evs := if (i + 1) % 5 = 0 ∨ i = n - 1 then [Ev.content (pyStrip curr2)] else []
      let r := emitChunks sid rest (i + 1) n curr2 ab.2 intf
      (evs ++ r.1, r.2)

/-- The message attached to the `error` event: `f'發生錯誤: {str(e)}'`. -/
def errMsg (e : String) : String := "發生錯誤: " ++ e

/-- `generate_response` in `endpoints.py`: mark processing, clear a stale
abort flag, emit the `session_id` event when the request id differs from
the resolved id, emit `start`, poll the abort flag, run the Answer
Engine (its outcome is the parameter `engine`), poll again, stream the
answer in chunks, and in every case clear the processing flag at the
end (`finally:`). -/
def generate_response (st : SessionManager) (requestSid : Option String)
    (sid : String) (engine : Except String String)
    (intf : Nat → SessionManager → SessionManager) :
    List Ev × SessionManager :=
  let st1 := (set_processing_status st sid true).2
  let st2 := (reset_session_abort st1 sid).2
  let pre : List Ev := if requestSid = some sid then [] else [Ev.session_id sid]
  let evs0 := pre ++ [Ev.start]
  let st3 := intf 0 st2
  let ab0 := is_session_aborted st3 sid
  if ab0.1 then finishTurn (evs0 ++ [Ev.aborted]) ab0.2 sid
  else
    match engine with
    | Except.error e => finishTurn (evs0 ++ [Ev.error (errMsg e)]) ab0.2 sid
    | Except.ok answer =>
      let st4 := intf 1 ab0.2
      let ab1 := is_session_aborted st4 sid
      if ab1.1 then finishTurn (evs0 ++ [Ev.aborted]) ab1.2 sid
      else
        let words := pySplit answer
        let r := emitChunks sid words 0 words.length "" ab1.2 intf
        finishTurn (evs0 ++ r.1) r.2 sid

/-- Python truthiness test `if not session_id:` on the optional request
id: true for a missing id and for the empty string. -/
def suppliedBlank (requestSid : Option String) : Bool :=
  match requestSid with
  | none => true
  | some s => s = ""

/-- The session-resolution step of `chat_stream`: keep a truthy supplied
id, otherwise create a fresh session. -/
def resolve_session (st : SessionManager) (requestSid : Option String) (now : Int) :
    String × SessionManager :=
  match requestSid with
  | none => create_session st now
  | some s => if s = "" then create_session st now else (s, st)

/-- `rag_service.create_chat_engine(memory)`: opaque engine built over a
memory handle, modelled as the handle itself. -/
def create_chat_engine (memory : Nat) : Nat := memory

/-- The engine-binding step of `chat_stream`: use the cached engine, or
build one from `get_or_create_memory` and cache it. -/
def bind_engine (st : SessionManager) (sid : String) (now : Int) : SessionManager :=
  let r := get_chat_engine st sid now
  match r.1 with
  | some _ => r.2
  | none =>
    match get_or_create_memory r.2 sid now with
    | (some memory, st2) => set_chat_engine st2 sid (create_chat_engine memory)
    | (none, st2) => st2

/-- `chat_stream` in `endpoints.py`: resolve the session id, bind the
engine, then stream `generate_response`. -/
def chat_stream (st : SessionManager) (requestSid : Option String)
    (engine : Except String String) (now : Int)
    (intf : Nat → SessionManager → SessionManager) :
    List Ev × SessionManager :=
  let r := resolve_session st requestSid now
  let st2 := bind_engine r.2 r.1 now
  generate_response st2 requestSid r.1 engine intf

/-- The JSON body returned by the abort endpoint; `session_id = none`
models the response dict carrying no `session_id` key. -/
structure AbortResponse where
  success : Bool
  message : String
  session_id : Option String
  deriving Repr, DecidableEq

/-- `abort_chat` in `endpoints.py`: check existence via `get_session`,
then the processing flag, then set the abort flag. -/
def abort_chat (st : SessionManager) (sid : String) (now : Int) :
    AbortResponse × SessionManager :=
  match get_session st sid now with
  | (none, st2) =>
    ({ success := false, message := "會話不存在", session_id := none }, st2)
  | (some _, st2) =>
    let p := is_session_processing st2 sid
    if ¬ p.1 then
      ({ success := false, message := "當前沒有進行中的對話", session_id := none }, p.2)
    else
      let a := abort_session p.2 sid
      ({ success := a.1
         message := if a.1 then "對話已中止" else "中止失敗"
         session_id := some sid }, a.2)

/-! ## Operation language (for lifetime claims about the store) -/

/-- One public store operation, as invoked by the HTTP layer; used to
quantify over everything the store can do after a point in time. -/
inductive Op where
  | opCreate (now : Int)
  | opGet (sid : String) (now : Int)
  | opGetOrCreateMemory (sid : String) (now : Int)
  | opSetEngine (sid : String) (engine : Nat)
  | opGetEngine (sid : String) (now : Int)
  | opCleanup (now : Int)
  | opDelete (sid : String)
  | opAbort (sid : String)
  | opResetAbort (sid : String)
  | opSetProcessing (sid : String) (b : Bool)

/-- Apply one store operation (discarding its return value). -/
def applyOp (st : SessionManager) : Op → SessionManager
  | Op.opCreate now => (create_session st now).2
  | Op.opGet sid now => (get_session st sid now).2
  | Op.opGetOrCreateMemory sid now => (get_or_create_memory st sid now).2
  | Op.opSetEngine sid engine => set_chat_engine st sid engine
  | Op.opGetEngine sid now => (get_chat_engine st sid now).2
  | Op.opCleanup now => (cleanup_expired_sessions st now).2
  | Op.opDelete sid => (delete_session st sid).2
  | Op.opAbort sid => (abort_session st sid).2
  | Op.opResetAbort sid => (reset_session_abort st sid).2
  | Op.opSetProcessing sid b => (set_processing_status st sid b).2

/-- Apply a sequence of store operations. -/
def applyOps (st : SessionManager) (ops : List Op) : SessionManager :=
  ops.foldl applyOp st

/-! ## Spec-side definitions (used to state the claims) -/

/-- Modelled from the spec's words: tokens joined by single spaces. -/
def joinTokens : List String → String
  | [] => ""
  | [w] => w
  | w :: x :: rest => w ++ " " ++ joinTokens (x :: rest)

/-- Modelled from the claim's words: for an answer of tokens `ws`, one
content event carrying the cumulative buffer (the tokens so far, joined
by single spaces) after every 5th token and unconditionally after the
final token. -/
def contentEventsSpec (ws : List String) : List Ev :=
  (List.range ws.length).filterMap (fun i =>
    if (i + 1) % 5 = 0 ∨ i = ws.length - 1 then
      some (Ev.content (joinTokens (ws.take (i + 1))))
    else none)

/-- A well-formed token: nonempty and free of whitespace (every token
produced by `pySplit` has this shape). -/
def cleanTok (w : String) : Prop :=
  w.data ≠ [] ∧ ∀ c ∈ w.data, isSpace c = false

/-- The running buffer the token loop has built after consuming the
tokens `ws`: each token followed by one space. -/
def joinWords (ws : List String) : String :=
  ws.foldl (fun acc w => acc ++ w ++ " ") ""

/-- The content events the token loop emits from position `i` on, when
no abort is ever observed (pure residue of `emitChunks`). -/
def chunksFrom : List String → Nat → Nat → String → List Ev
  | [], _, _, _ => []
  | w :: rest, i, n, curr =>
    let curr2 := curr ++ w ++ " "
    (if (i + 1) % 5 = 0 ∨ i = n - 1 then [Ev.content (pyStrip curr2)] else [])
      ++ chunksFrom rest (i + 1) n curr2

/-! ## Concrete stores for witnesses and counterexamples -/

/-- A manager with the default timeout and no sessions. -/
def emptyStore : SessionManager :=
  { sessions := [], session_timeout := 3600, nextId := 0 }

/-- Id of a session created at time 0 in the empty store. -/
def demoSid : String := (create_session emptyStore 0).1

/-- The store holding that one session (`last_access = 0`). -/
def demoStore : SessionManager := (create_session emptyStore 0).2

/-- The same store with the demo session marked as processing. -/
def demoProcessing : SessionManager :=
  (set_processing_status demoStore demoSid true).2

/-- Demo store with a second, fresher session (created at time 5000). -/
def demoTwo : SessionManager := (create_session demoStore 5000).2

/-- A 12-word answer string for the end-to-end emission witness. -/
def answer12 : String := "w1 w2 w3 w4 w5 w6 w7 w8 w9 w10 w11 w12"

/-! ## Association-list lemmas -/

theorem lookupSession_nil (k : String) : lookupSession [] k = none := rfl

theorem lookupSession_cons (p : String × Session) (t : List (String × Session)) (k : String) :
    lookupSession (p :: t) k = if p.1 = k then some p.2 else lookupSession t k := by
  by_cases h : p.1 = k
  · simp [lookupSession, List.find?, h]
  · simp [lookupSession, List.find?, h]

theorem eraseSession_cons (p : String × Session) (t : List (String × Session)) (k : String) :
    eraseSession (p :: t) k = if p.1 = k then eraseSession t k else p :: eraseSession t k := by
  by_cases h : p.1 = k <;> simp [eraseSession, List.filter_cons, h]

theorem lookupSession_insert_self (l : List (String × Session)) (k : String) (v : Session) :
    lookupSession (insertSession l k v) k = some v := by
  rw [insertSession, lookupSession_cons, if_pos rfl]

theorem lookupSession_erase_self (l : List (String × Session)) (k : String) :
    lookupSession (eraseSession l k) k = none := by
  induction l with
  | nil => rfl
  | cons p t ih =>
    rw [eraseSession_cons]
    by_cases h : p.1 = k
    · rwa [if_pos h]
    · rw [if_neg h, lookupSession_cons, if_neg h]
      exact ih

theorem lookupSession_erase_ne (l : List (String × Session)) (k k2 : String)
    (h : k2 ≠ k) : lookupSession (eraseSession l k) k2 = lookupSession l k2 := by
  induction l with
  | nil => rfl
  | cons p t ih =>
    rw [eraseSession_cons]
    by_cases hp : p.1 = k
    · rw [if_pos hp, ih, lookupSession_cons,
        if_neg (fun e => h (by rw [← e, hp]))]
    · rw [if_neg hp, lookupSession_cons, lookupSession_cons, ih]

theorem lookupSession_insert_ne (l : List (String × Session)) (k k2 : String) (v : Session)
    (h : k2 ≠ k) : lookupSession (insertSession l k v) k2 = lookupSession l k2 := by
  rw [insertSession, lookupSession_cons, if_neg (fun e => h e.symm)]
  exact lookupSession_erase_ne l k k2 h

theorem lookupSession_eq_none_iff (l : List (String × Session)) (k : String) :
    lookupSession l k = none ↔ ∀ p ∈ l, p.1 ≠ k := by
  simp [lookupSession, List.find?_eq_none]

theorem eraseSession_eq_self_of_none (l : List (String × Session)) (k : String)
    (h : lookupSession l k = none) : eraseSession l k = l := by
  rw [eraseSession, List.filter_eq_self]
  intro p hp
  simpa using (lookupSession_eq_none_iff l k).1 h p hp

theorem length_insertSession_of_none (l : List (String × Session)) (k : String) (v : Session)
    (h : lookupSession l k = none) : (insertSession l k v).length = l.length + 1 := by
  simp [insertSession, eraseSession_eq_self_of_none l k h]

theorem insertSession_insertSession (l : List (String × Session)) (k : String) (v v2 : Session) :
    insertSession (insertSession l k v) k v2 = insertSession l k v2 := by
  simp only [insertSession]
  congr 1
  rw [eraseSession_cons, if_pos rfl]
  exact eraseSession_eq_self_of_none _ _ (lookupSession_erase_self l k)

theorem lookupSession_some_unique (l : List (String × Session)) (k : String) (v : Session)
    (hnd : (l.map Prod.fst).Nodup) (h : lookupSession l k = some v) :
    ∀ p ∈ l, p.1 = k → p = (k, v) := by
  induction l with
  | nil => intro p hp; simp at hp
  | cons q t ih =>
    simp only [List.map_cons, List.nodup_cons] at hnd
    intro p hp hpk
    rw [lookupSession_cons] at h
    by_cases hq : q.1 = k
    · rw [if_pos hq] at h
      have hv : v = q.2 := by injection h with h2; exact h2.symm
      rcases List.mem_cons.1 hp with hpq | hpt
      · subst hpq
        cases p with
        | mk a b =>
          simp only at hq hv ⊢
          rw [show a = k from hpk, ← hv]
      · exfalso
        apply hnd.1
        rw [hq, ← hpk]
        exact List.mem_map.2 ⟨p, hpt, rfl⟩
    · rw [if_neg hq] at h
      rcases List.mem_cons.1 hp with hpq | hpt
      · exact absurd (hpq ▸ hpk) hq
      · exact ih hnd.2 h p hpt hpk

theorem lookupSession_filter_some (l : List (String × Session)) (q : String × Session → Bool)
    (k : String) (v : Session) (h : lookupSession l k = some v) (hq : q (k, v) = true) :
    lookupSession (l.filter q) k = some v := by
  induction l with
  | nil => simp [lookupSession] at h
  | cons p t ih =>
    rw [lookupSession_cons] at h
    by_cases hp : p.1 = k
    · rw [if_pos hp] at h
      have hpkv : p = (k, v) := by
        cases p with
        | mk a b =>
          injection h with h2
          simp only at hp h2 ⊢
          rw [hp, h2]
      rw [List.filter_cons, hpkv, if_pos hq, lookupSession_cons, if_pos rfl]
    · rw [if_neg hp] at h
      rw [List.filter_cons]
      by_cases hqp : q p = true
      · rw [if_pos hqp, lookupSession_cons, if_neg hp]
        exact ih h
      · rw [if_neg hqp]
        exact ih h

theorem lookupSession_filter_none (l : List (String × Session)) (q : String × Session → Bool)
    (k : String) (v : Session) (hnd : (l.map Prod.fst).Nodup)
    (h : lookupSession l k = some v) (hq : q (k, v) = false) :
    lookupSession (l.filter q) k = none := by
  rw [lookupSession_eq_none_iff]
  intro p hp hpk
  have hmem := (List.mem_filter.1 hp).1
  have hqp := (List.mem_filter.1 hp).2
  have := lookupSession_some_unique l k v hnd h p hmem hpk
  rw [this, hq] at hqp
  exact absurd hqp (by simp)

/-! ## Fresh-id lemmas -/

theorem freshId_length (n : Nat) : (freshId n).length = n + 1 := by
  simp [freshId, String.length]

theorem freshId_inj {m n : Nat} (h : freshId m = freshId n) : m = n := by
  have := congrArg String.length h
  simp only [freshId_length] at this
  omega

theorem freshId_ne_empty (n : Nat) : freshId n ≠ "" := by
  intro h
  have := congrArg String.length h
  simp [freshId_length] at this

/-! ## Store-operation framing lemmas -/

theorem is_session_aborted_store (st : SessionManager) (sid : String) :
    (is_session_aborted st sid).2 = st := by
  unfold is_session_aborted
  cases lookupSession st.sessions sid <;> rfl

theorem is_session_processing_store (st : SessionManager) (sid : String) :
    (is_session_processing st sid).2 = st := by
  unfold is_session_processing
  cases lookupSession st.sessions sid <;> rfl

theorem procCleared (st : SessionManager) (sid : String) :
    (is_session_processing (set_processing_status st sid false).2 sid).1 = false := by
  unfold set_processing_status is_session_processing
  cases h : lookupSession st.sessions sid with
  | none => simp [h]
  | some sess => simp [h, lookupSession_insert_self]

theorem abortCleared (st : SessionManager) (sid : String) :
    (is_session_aborted (reset_session_abort st sid).2 sid).1 = false := by
  unfold reset_session_abort is_session_aborted
  cases h : lookupSession st.sessions sid with
  | none => simp [h]
  | some sess => simp [h, lookupSession_insert_self]

/-! ## Driver shape lemmas -/

theorem emitChunks_shape (sid : String) (ws : List String) :
    ∀ i n curr st intf,
      ∃ cs term st2, emitChunks sid ws i n curr st intf = (cs ++ [term], st2)
        ∧ (∀ e ∈ cs, ∃ t, e = Ev.content t)
        ∧ (term = Ev.done ∨ term = Ev.aborted) := by
  induction ws with
  | nil =>
    intro i n curr st intf
    exact ⟨[], Ev.done, st, rfl, by simp, Or.inl rfl⟩
  | cons w rest ih =>
    intro i n curr st intf
    by_cases hab : (is_session_aborted (intf (2 + i) st) sid).1 = true
    · refine ⟨[], Ev.aborted, (is_session_aborted (intf (2 + i) st) sid).2, ?_, by simp, Or.inr rfl⟩
      simp [emitChunks, hab]
    · obtain ⟨cs, term, st2, heq, hcs, hterm⟩ :=
        ih (i + 1) n (curr ++ w ++ " ") (is_session_aborted (intf (2 + i) st) sid).2 intf
      refine ⟨(if (i + 1) % 5 = 0 ∨ i = n - 1 then [Ev.content (pyStrip (curr ++ w ++ " "))]
               else []) ++ cs, term, st2, ?_, ?_, hterm⟩
      · simp only [emitChunks, Bool.not_eq_true] at hab ⊢
        rw [hab]
        simp only [Bool.false_eq_true, if_false, heq, List.append_assoc]
      · intro e he
        rcases List.mem_append.1 he with h1 | h2
        · rcases (by split at h1 <;> simp_all : e = Ev.content (pyStrip (curr ++ w ++ " "))) with rfl
          exact ⟨_, rfl⟩
        · exact hcs e h2

theorem gen_shape (st : SessionManager) (rid : Option String) (sid : String)
    (engine : Except String String) (intf : Nat → SessionManager → SessionManager) :
    ∃ contents term,
      (generate_response st rid sid engine intf).1
        = (if rid = some sid then [] else [Ev.session_id sid]) ++ [Ev.start] ++ contents ++ [term]
      ∧ (∀ e ∈ contents, ∃ t, e = Ev.content t)
      ∧ (term = Ev.done ∨ term = Ev.aborted ∨ ∃ m, term = Ev.error m) := by
  unfold generate_response finishTurn
  by_cases hab0 : (is_session_aborted
      (intf 0 (reset_session_abort (set_processing_status st sid true).2 sid).2) sid).1 = true
  · refine ⟨[], Ev.aborted, ?_, by simp, Or.inr (Or.inl rfl)⟩
    simp [hab0]
  · simp only [Bool.not_eq_true] at hab0
    cases engine with
    | error e =>
      refine ⟨[], Ev.error (errMsg e), ?_, by simp, Or.inr (Or.inr ⟨errMsg e, rfl⟩)⟩
      simp [hab0]
    | ok answer =>
      by_cases hab1 : (is_session_aborted
          (intf 1 (is_session_aborted
            (intf 0 (reset_session_abort (set_processing_status st sid true).2 sid).2) sid).2)
          sid).1 = true
      · refine ⟨[], Ev.aborted, ?_, by simp, Or.inr (Or.inl rfl)⟩
        simp [hab0, hab1]
      · simp only [Bool.not_eq_true] at hab1
        obtain ⟨cs, term, st2, heq, hcs, hterm⟩ :=
          emitChunks_shape sid (pySplit answer) 0 (pySplit answer).length ""
            (is_session_aborted
              (intf 1 (is_session_aborted
                (intf 0 (reset_session_abort (set_processing_status st sid true).2 sid).2) sid).2)
              sid).2 intf
        refine ⟨cs, term, ?_, hcs, ?_⟩
        · simp [hab0, hab1, heq]
        · rcases hterm with h | h
          · exact Or.inl h
          · exact Or.inr (Or.inl h)

theorem gen_processing_cleared (st : SessionManager) (rid : Option String) (sid : String)
    (engine : Except String String) (intf : Nat → SessionManager → SessionManager) :
    (is_session_processing (generate_response st rid sid engine intf).2 sid).1 = false := by
  unfold generate_response finishTurn
  by_cases hab0 : (is_session_aborted
      (intf 0 (reset_session_abort (set_processing_status st sid true).2 sid).2) sid).1 = true
  · simp [hab0, procCleared]
  · simp only [Bool.not_eq_true] at hab0
    cases engine with
    | error e => simp [hab0, procCleared]
    | ok answer =>
      by_cases hab1 : (is_session_aborted
          (intf 1 (is_session_aborted
            (intf 0 (reset_session_abort (set_processing_status st sid true).2 sid).2) sid).2)
          sid).1 = true
      · simp [hab0, hab1, procCleared]
      · simp only [Bool.not_eq_true] at hab1
        simp [hab0, hab1, procCleared]

/-! ## Claim theorems -/

/-- C2: for every chat turn — whatever the store, the supplied id, the
Answer Engine outcome, and the concurrent interference — the emitted
event sequence is an optional `session_id` event (present iff the caller
did not supply a truthy session id, and preceding every other event),
then exactly one `start` event, then zero or more `content` events, then
exactly one terminal event (`done`, `aborted` or `error`), with nothing
after the terminal event. -/
theorem claim_C2 (st : SessionManager) (rid : Option String)
    (engine : Except String String) (now : Int)
    (intf : Nat → SessionManager → SessionManager) :
    ∃ sid contents term,
      (chat_stream st rid engine now intf).1
        = (if suppliedBlank rid then [Ev.session_id sid] else [])
          ++ [Ev.start] ++ contents ++ [term]
      ∧ (∀ e ∈ contents, ∃ t, e = Ev.content t)
      ∧ (term = Ev.done ∨ term = Ev.aborted ∨ ∃ m, term = Ev.error m) := by
  cases rid with
  | none =>
    obtain ⟨cs, term, heq, hcs, hterm⟩ :=
      gen_shape (bind_engine (create_session st now).2 (create_session st now).1 now)
        none (create_session st now).1 engine intf
    refine ⟨(create_session st now).1, cs, term, ?_, hcs, hterm⟩
    have h2 : (chat_stream st none engine now intf).1
        = (generate_response (bind_engine (create_session st now).2 (create_session st now).1 now)
            none (create_session st now).1 engine intf).1 := rfl
    rw [h2, heq]
    simp [suppliedBlank]
  | some s =>
    by_cases hs : s = ""
    · subst hs
      obtain ⟨cs, term, heq, hcs, hterm⟩ :=
        gen_shape (bind_engine (create_session st now).2 (create_session st now).1 now)
          (some "") (create_session st now).1 engine intf
      refine ⟨(create_session st now).1, cs, term, ?_, hcs, hterm⟩
      have h2 : (chat_stream st (some "") engine now intf).1
          = (generate_response
              (bind_engine (create_session st now).2 (create_session st now).1 now)
              (some "") (create_session st now).1 engine intf).1 := by
        simp [chat_stream, resolve_session]
      rw [h2, heq]
      have hne : ¬ ((some "" : Option String) = some (create_session st now).1) := by
        intro h3
        exact freshId_ne_empty st.nextId (by injection h3 with h4; exact h4.symm)
      simp [suppliedBlank, hne]
    · obtain ⟨cs, term, heq, hcs, hterm⟩ :=
        gen_shape (bind_engine st s now) (some s) s engine intf
      refine ⟨s, cs, term, ?_, hcs, hterm⟩
      have h2 : (chat_stream st (some s) engine now intf).1
          = (generate_response (bind_engine st s now) (some s) s engine intf).1 := by
        simp [chat_stream, resolve_session, hs]
      rw [h2, heq]
      simp [suppliedBlank, hs]

/-- C3: whatever terminal state a chat turn reaches (and whatever the
concurrent interference), the processing flag of the resolved session is
false once the turn completes; and when the Answer Engine raises `e`,
the turn emits exactly one `error` event carrying the stringified
exception (after the optional `session_id` and the `start` event), while
the flag is still cleared by the first conjunct. -/
theorem claim_C3 (st : SessionManager) (rid : Option String) (sid : String)
    (engine : Except String String) (intf : Nat → SessionManager → SessionManager) :
    (is_session_processing (generate_response st rid sid engine intf).2 sid).1 = false
    ∧ (∀ e, engine = Except.error e →
        (generate_response st rid sid engine intfNone).1
          = (if rid = some sid then [] else [Ev.session_id sid])
            ++ [Ev.start, Ev.error (errMsg e)]) := by
  refine ⟨gen_processing_cleared st rid sid engine intf, ?_⟩
  intro e he
  subst he
  have h0 := abortCleared (set_processing_status st sid true).2 sid
  simp [generate_response, intfNone, h0, finishTurn]

/-- Witness for C3: on the demo store with no supplied id and an Answer
Engine that raises `"boom"`, the processing flag is false after the turn
and the events are exactly `session_id`, `start`, and one `error` event
carrying the stringified exception. -/
theorem claim_C3_witness :
    (is_session_processing
      (generate_response demoStore none demoSid (Except.error "boom") intfNone).2 demoSid).1
        = false
    ∧ (generate_response demoStore none demoSid (Except.error "boom") intfNone).1
        = [Ev.session_id demoSid, Ev.start, Ev.error (errMsg "boom")] :=
  ⟨(claim_C3 demoStore none demoSid (Except.error "boom") intfNone).1, by
    have h := (claim_C3 demoStore none demoSid (Except.error "boom") intfNone).2 "boom" rfl
    simpa using h⟩

/-- C9: `delete_session` returns true iff the id was present, and
afterwards every read operation on that id returns the same sentinel it
returns for a never-created id: `get_session` yields `none` and leaves
the store untouched, `is_session_aborted` and `is_session_processing`
yield `false`, and `get_chat_engine` yields `none`. -/
theorem claim_C9 (st : SessionManager) (sid : String) (now : Int) :
    ((delete_session st sid).1 = true ↔ lookupSession st.sessions sid ≠ none)
    ∧ get_session (delete_session st sid).2 sid now = (none, (delete_session st sid).2)
    ∧ (is_session_aborted (delete_session st sid).2 sid).1 = false
    ∧ (is_session_processing (delete_session st sid).2 sid).1 = false
    ∧ (get_chat_engine (delete_session st sid).2 sid now).1 = none := by
  have hlook : lookupSession (delete_session st sid).2.sessions sid = none := by
    unfold delete_session
    cases h : lookupSession st.sessions sid with
    | none => simp [h]
    | some v => simp [h, lookupSession_erase_self]
  refine ⟨?_, ?_, ?_, ?_, ?_⟩
  · unfold delete_session
    cases h : lookupSession st.sessions sid <;> simp [h]
  · simp [get_session, hlook]
  · simp [is_session_aborted, hlook]
  · simp [is_session_processing, hlook]
  · simp [get_chat_engine, get_session, hlook]

/-- C10: an answer whose whitespace split is empty (empty or
all-whitespace string) yields zero `content` events and a `done`
terminal event, right after the optional `session_id` event and the
`start` event. -/
theorem claim_C10 (st : SessionManager) (rid : Option String) (sid : String)
    (answer : String) (h : pySplit answer = []) :
    (generate_response st rid sid (Except.ok answer) intfNone).1
      = (if rid = some sid then [] else [Ev.session_id sid]) ++ [Ev.start, Ev.done] := by
  have h0 := abortCleared (set_processing_status st sid true).2 sid
  simp [generate_response, intfNone, h0, is_session_aborted_store, finishTurn, h, emitChunks]

/-- Witness for C10: the all-whitespace answer `"   "` splits to no
tokens, and the turn on the demo store emits `start` then `done` with no
content events. -/
theorem claim_C10_witness :
    pySplit "   " = []
    ∧ (generate_response demoStore (some demoSid) demoSid (Except.ok "   ") intfNone).1
        = (if (some demoSid : Option String) = some demoSid then []
           else [Ev.session_id demoSid]) ++ [Ev.start, Ev.done] :=
  ⟨by decide, claim_C10 demoStore (some demoSid) demoSid "   " (by decide)⟩

/-- Counterexample to C4 as stated: on the demo store the session exists
and is not processing; the abort response then has `success = false` but
carries no `session_id` key (modelled as `none`), and the session's
`last_access` does change (refreshed to the current time 100 by the
existence check), against the claim's "carries the keys
{success, message, session_id}" and "no session state changes". -/
theorem claim_C4_cex :
    (lookupSession demoStore.sessions demoSid).isSome = true
    ∧ (is_session_processing demoStore demoSid).1 = false
    ∧ (abort_chat demoStore demoSid 100).1.success = false
    ∧ (abort_chat demoStore demoSid 100).1.session_id = none
    ∧ (lookupSession demoStore.sessions demoSid).map Session.last_access = some 0
    ∧ (lookupSession (abort_chat demoStore demoSid 100).2.sessions demoSid).map
        Session.last_access = some 100 := by
  decide

/-- C4 (amended): the abort response always carries `success` and
`message`, and carries `session_id` only when the abort succeeds; an
unknown id yields `success=false` with the not-found message and an
unchanged store; an existing non-processing session yields
`success=false` with the distinct not-processing message and no session
state change other than `last_access` being refreshed by the existence
check; an existing processing session yields `success=true` and its
`is_aborted` flag becomes true.  The two failure messages are distinct. -/
theorem claim_C4_amended (st : SessionManager) (sid : String) (now : Int) :
    (lookupSession st.sessions sid = none →
      abort_chat st sid now
        = ({ success := false, message := "會話不存在", session_id := none }, st))
    ∧ (∀ sess, lookupSession st.sessions sid = some sess → sess.is_processing = false →
        abort_chat st sid now
          = ({ success := false, message := "當前沒有進行中的對話", session_id := none },
             { st with sessions := insertSession st.sessions sid ({ sess with last_access := now }) }))
    ∧ (∀ sess, lookupSession st.sessions sid = some sess → sess.is_processing = true →
        (abort_chat st sid now).1
          = { success := true, message := "對話已中止", session_id := some sid }
        ∧ (is_session_aborted (abort_chat st sid now).2 sid).1 = true)
    ∧ ("會話不存在" : String) ≠ "當前沒有進行中的對話" := by
  refine ⟨?_, ?_, ?_, by decide⟩
  · intro h
    simp [abort_chat, get_session, h]
  · intro sess h hproc
    simp [abort_chat, get_session, h, is_session_processing, lookupSession_insert_self, hproc]
  · intro sess h hproc
    constructor
    · simp [abort_chat, get_session, h, is_session_processing, lookupSession_insert_self, hproc,
        abort_session]
    · simp [abort_chat, get_session, h, is_session_processing, lookupSession_insert_self, hproc,
        abort_session, is_session_aborted, insertSession_insertSession]

/-- Witness for C4 (amended), at the processing branch: on the store
whose demo session is processing, the abort call at time 50 succeeds,
reports the session id, and sets the abort flag. -/
theorem claim_C4_witness :
    lookupSession demoProcessing.sessions demoSid
      = some { memory := 0, chat_engine := none, created_at := 0, last_access := 0,
               is_aborted := false, is_processing := true }
    ∧ ((abort_chat demoProcessing demoSid 50).1
        = { success := true, message := "對話已中止", session_id := some demoSid }
      ∧ (is_session_aborted (abort_chat demoProcessing demoSid 50).2 demoSid).1 = true) :=
  ⟨by decide,
   (claim_C4_amended demoProcessing demoSid 50).2.2.1
     { memory := 0, chat_engine := none, created_at := 0, last_access := 0,
       is_aborted := false, is_processing := true } (by decide) rfl⟩

/-- Counterexample to C7 as stated: on the demo store (session present,
`last_access = 0`) at current time 100, `is_session_aborted` and
`is_session_processing` return the store — and hence the session's
`last_access` — completely unchanged, while `get_session` at the same
time sets `last_access` to 100; so those two accessors are not defined
in terms of `get` and do not touch `last_access`. -/
theorem claim_C7_cex :
    (lookupSession demoStore.sessions demoSid).isSome = true
    ∧ (is_session_aborted demoStore demoSid).2 = demoStore
    ∧ (is_session_processing demoStore demoSid).2 = demoStore
    ∧ (lookupSession demoStore.sessions demoSid).map Session.last_access = some 0
    ∧ (lookupSession (get_session demoStore demoSid 100).2.sessions demoSid).map
        Session.last_access = some 100 := by
  decide

/-- C7 (amended): of the read accessors, only `get_chat_engine` is
defined in terms of `get_session` and therefore refreshes `last_access`
on an existing session; `is_session_aborted` and `is_session_processing`
read the flag directly and leave the store (hence `last_access`)
unchanged. -/
theorem claim_C7_amended (st : SessionManager) (sid : String) (now : Int) (sess : Session)
    (h : lookupSession st.sessions sid = some sess) :
    (∃ sess2, lookupSession (get_chat_engine st sid now).2.sessions sid = some sess2
      ∧ sess2.last_access = now)
    ∧ (is_session_aborted st sid).2 = st
    ∧ (is_session_processing st sid).2 = st := by
  refine ⟨⟨{ sess with last_access := now }, ?_, rfl⟩,
    is_session_aborted_store st sid, is_session_processing_store st sid⟩
  simp [get_chat_engine, get_session, h, lookupSession_insert_self]

/-- Witness for C7 (amended) on the demo store at current time 100. -/
theorem claim_C7_witness :
    lookupSession demoStore.sessions demoSid
      = some { memory := 0, chat_engine := none, created_at := 0, last_access := 0,
               is_aborted := false, is_processing := false }
    ∧ ((∃ sess2, lookupSession (get_chat_engine demoStore demoSid 100).2.sessions demoSid
          = some sess2 ∧ sess2.last_access = 100)
      ∧ (is_session_aborted demoStore demoSid).2 = demoStore
      ∧ (is_session_processing demoStore demoSid).2 = demoStore) :=
  ⟨by decide,
   claim_C7_amended demoStore demoSid 100
     { memory := 0, chat_engine := none, created_at := 0, last_access := 0,
       is_aborted := false, is_processing := false } (by decide)⟩

end Foodie

namespace Foodie

/-! ## `nextId` monotonicity (the fresh-id counter never goes back) -/

theorem get_session_nextId (st : SessionManager) (sid : String) (now : Int) :
    (get_session st sid now).2.nextId = st.nextId := by
  unfold get_session
  cases h : lookupSession st.sessions sid <;> simp [h]

theorem create_session_nextId (st : SessionManager) (now : Int) :
    (create_session st now).2.nextId = st.nextId + 1 := rfl

theorem get_or_create_memory_nextId (st : SessionManager) (sid : String) (now : Int) :
    st.nextId ≤ (get_or_create_memory st sid now).2.nextId := by
  unfold get_or_create_memory
  rcases hg : get_session st sid now with ⟨o, st2⟩
  have h2 : st2.nextId = st.nextId := by
    have := get_session_nextId st sid now
    rwa [hg] at this
  cases o with
  | some sess => simp [h2]
  | none =>
    rcases hg2 : get_session (create_session st2 now).2 (create_session st2 now).1 now
      with ⟨o2, st3⟩
    have h3 : st3.nextId = st2.nextId + 1 := by
      have := get_session_nextId (create_session st2 now).2 (create_session st2 now).1 now
      rw [hg2] at this
      simpa [create_session_nextId] using this
    cases o2 <;> simp [hg2, h3, h2]

theorem set_chat_engine_nextId (st : SessionManager) (sid : String) (e : Nat) :
    (set_chat_engine st sid e).nextId = st.nextId := by
  unfold set_chat_engine
  cases h : lookupSession st.sessions sid <;> simp [h]

theorem get_chat_engine_nextId (st : SessionManager) (sid : String) (now : Int) :
    (get_chat_engine st sid now).2.nextId = st.nextId := by
  unfold get_chat_engine
  rcases hg : get_session st sid now with ⟨o, st2⟩
  have h2 : st2.nextId = st.nextId := by
    have := get_session_nextId st sid now
    rwa [hg] at this
  cases o <;> simpa using h2

theorem delete_session_nextId (st : SessionManager) (sid : String) :
    (delete_session st sid).2.nextId = st.nextId := by
  unfold delete_session
  cases h : lookupSession st.sessions sid <;> simp [h]

theorem abort_session_nextId (st : SessionManager) (sid : String) :
    (abort_session st sid).2.nextId = st.nextId := by
  unfold abort_session
  cases h : lookupSession st.sessions sid <;> simp [h]

theorem reset_session_abort_nextId (st : SessionManager) (sid : String) :
    (reset_session_abort st sid).2.nextId = st.nextId := by
  unfold reset_session_abort
  cases h : lookupSession st.sessions sid <;> simp [h]

theorem set_processing_status_nextId (st : SessionManager) (sid : String) (b : Bool) :
    (set_processing_status st sid b).2.nextId = st.nextId := by
  unfold set_processing_status
  cases h : lookupSession st.sessions sid <;> simp [h]

theorem applyOp_nextId (st : SessionManager) (op : Op) :
    st.nextId ≤ (applyOp st op).nextId := by
  cases op with
  | opCreate now => simp [applyOp, create_session_nextId]
  | opGet sid now => simp [applyOp, get_session_nextId]
  | opGetOrCreateMemory sid now => exact get_or_create_memory_nextId st sid now
  | opSetEngine sid e => simp [applyOp, set_chat_engine_nextId]
  | opGetEngine sid now => simp [applyOp, get_chat_engine_nextId]
  | opCleanup now => simp [applyOp, cleanup_expired_sessions]
  | opDelete sid => simp [applyOp, delete_session_nextId]
  | opAbort sid => simp [applyOp, abort_session_nextId]
  | opResetAbort sid => simp [applyOp, reset_session_abort_nextId]
  | opSetProcessing sid b => simp [applyOp, set_processing_status_nextId]

theorem applyOps_nextId (ops : List Op) :
    ∀ st : SessionManager, st.nextId ≤ (applyOps st ops).nextId := by
  induction ops with
  | nil => intro st; exact Nat.le_refl _
  | cons op ops ih =>
    intro st
    exact Nat.le_trans (applyOp_nextId st op) (ih (applyOp st op))

/-- C8: `create_session` is total and inserts a record with both flags
false, no cached engine, both timestamps `now`, and a memory handle
distinct from every other session's (given that existing handles came
from earlier counter values); and the returned identifier differs from
the identifier returned by any later `create_session`, whatever store
operations (including deleting the session) happen in between — so ids
are never reused for the lifetime of the store. -/
theorem claim_C8 (st : SessionManager) (now : Int)
    (hmem : ∀ k s0, lookupSession st.sessions k = some s0 → s0.memory < st.nextId) :
    lookupSession (create_session st now).2.sessions (create_session st now).1
      = some { memory := st.nextId, chat_engine := none, created_at := now,
               last_access := now, is_aborted := false, is_processing := false }
    ∧ (∀ k s0, k ≠ (create_session st now).1 →
        lookupSession (create_session st now).2.sessions k = some s0 →
        s0.memory ≠ st.nextId)
    ∧ (∀ ops (now2 : Int),
        (create_session (applyOps (create_session st now).2 ops) now2).1
          ≠ (create_session st now).1) := by
  refine ⟨?_, ?_, ?_⟩
  · exact lookupSession_insert_self st.sessions (freshId st.nextId) _
  · intro k s0 hk hlook
    simp only [create_session] at hk hlook
    rw [lookupSession_insert_ne st.sessions (freshId st.nextId) k _ hk] at hlook
    exact Nat.ne_of_lt (hmem k s0 hlook)
  · intro ops now2 heq
    have h1 : (create_session (applyOps (create_session st now).2 ops) now2).1
        = freshId (applyOps (create_session st now).2 ops).nextId := rfl
    have h2 : (create_session st now).1 = freshId st.nextId := rfl
    rw [h1, h2] at heq
    have h3 := applyOps_nextId ops (create_session st now).2
    rw [create_session_nextId] at h3
    have h4 := freshId_inj heq
    omega

/-- Witness for C8, instantiated on the empty store at time 0. -/
theorem claim_C8_witness :
    (∀ k s0, lookupSession emptyStore.sessions k = some s0 → s0.memory < emptyStore.nextId)
    ∧ (lookupSession (create_session emptyStore 0).2.sessions (create_session emptyStore 0).1
        = some { memory := emptyStore.nextId, chat_engine := none, created_at := 0,
                 last_access := 0, is_aborted := false, is_processing := false }
      ∧ (∀ k s0, k ≠ (create_session emptyStore 0).1 →
          lookupSession (create_session emptyStore 0).2.sessions k = some s0 →
          s0.memory ≠ emptyStore.nextId)
      ∧ (∀ ops (now2 : Int),
          (create_session (applyOps (create_session emptyStore 0).2 ops) now2).1
            ≠ (create_session emptyStore 0).1)) := by
  have hmem : ∀ k s0, lookupSession emptyStore.sessions k = some s0 →
      s0.memory < emptyStore.nextId := by
    intro k s0 h
    simp [emptyStore, lookupSession] at h
  exact ⟨hmem, claim_C8 emptyStore 0 hmem⟩

/-- C5: `get_or_create_memory` on an id absent from the store never
rejects it: it creates a new session under the freshly generated id
(distinct from the supplied one, by UUID freshness — hypotheses `h2`,
`h3`), returns the new session's memory handle, leaves the supplied id
absent, and increases the session count by one; and the chat endpoint
emits no `session_id` event when the caller supplied a (truthy) id, so
the substituted id is never reported. -/
theorem claim_C5 (st : SessionManager) (sid : String) (now : Int)
    (h1 : lookupSession st.sessions sid = none)
    (h2 : sid ≠ freshId st.nextId)
    (h3 : lookupSession st.sessions (freshId st.nextId) = none) :
    (get_or_create_memory st sid now).1 = some st.nextId
    ∧ lookupSession (get_or_create_memory st sid now).2.sessions sid = none
    ∧ (∃ sess, lookupSession (get_or_create_memory st sid now).2.sessions (freshId st.nextId)
        = some sess ∧ sess.memory = st.nextId)
    ∧ get_session_count (get_or_create_memory st sid now).2 = get_session_count st + 1
    ∧ (∀ s2 : String, s2 ≠ "" → ∀ engine intf,
        ∀ e ∈ (chat_stream st (some s2) engine now intf).1, ∀ x, e ≠ Ev.session_id x) := by
  have hgo : get_or_create_memory st sid now
      = (some st.nextId,
         { sessions := insertSession st.sessions (freshId st.nextId)
             ({ memory := st.nextId, chat_engine := none, created_at := now,
                last_access := now, is_aborted := false, is_processing := false }),
           session_timeout := st.session_timeout,
           nextId := st.nextId + 1 }) := by
    simp [get_or_create_memory, get_session, h1, create_session, lookupSession_insert_self,
      insertSession_insertSession]
  refine ⟨by rw [hgo], ?_, ?_, ?_, ?_⟩
  · rw [hgo]
    show lookupSession (insertSession st.sessions (freshId st.nextId) _) sid = none
    rw [lookupSession_insert_ne _ _ _ _ h2]
    exact h1
  · rw [hgo]
    exact ⟨_, lookupSession_insert_self _ _ _, rfl⟩
  · rw [hgo]
    show (insertSession st.sessions (freshId st.nextId) _).length = st.sessions.length + 1
    exact length_insertSession_of_none _ _ _ h3
  · intro s2 hs2 engine intf e he x
    obtain ⟨cs, term, heq, hcs, hterm⟩ :=
      gen_shape (bind_engine st s2 now) (some s2) s2 engine intf
    have hcs2 : (chat_stream st (some s2) engine now intf).1
        = (generate_response (bind_engine st s2 now) (some s2) s2 engine intf).1 := by
      simp [chat_stream, resolve_session, hs2]
    rw [hcs2, heq] at he
    have he2 : e = Ev.start ∨ e ∈ cs ∨ e = term := by
      simpa using he
    rcases he2 with he | he | he
    · rw [he]; intro hfalse; cases hfalse
    · obtain ⟨t, rfl⟩ := hcs e he
      intro hfalse; cases hfalse
    · rcases hterm with hterm | hterm | ⟨m, hterm⟩ <;> rw [he, hterm] <;>
        intro hfalse <;> cases hfalse

/-- Witness for C5 on the demo store, with the unknown supplied id
`"nosuch"` at current time 7. -/
theorem claim_C5_witness :
    (lookupSession demoStore.sessions "nosuch" = none
      ∧ "nosuch" ≠ freshId demoStore.nextId
      ∧ lookupSession demoStore.sessions (freshId demoStore.nextId) = none)
    ∧ ((get_or_create_memory demoStore "nosuch" 7).1 = some demoStore.nextId
      ∧ lookupSession (get_or_create_memory demoStore "nosuch" 7).2.sessions "nosuch" = none
      ∧ (∃ sess, lookupSession (get_or_create_memory demoStore "nosuch" 7).2.sessions
            (freshId demoStore.nextId) = some sess ∧ sess.memory = demoStore.nextId)
      ∧ get_session_count (get_or_create_memory demoStore "nosuch" 7).2
          = get_session_count demoStore + 1
      ∧ (∀ s2 : String, s2 ≠ "" → ∀ engine intf,
          ∀ e ∈ (chat_stream demoStore (some s2) engine 7 intf).1, ∀ x, e ≠ Ev.session_id x)) :=
  ⟨⟨by decide, by decide, by decide⟩,
   claim_C5 demoStore "nosuch" 7 (by decide) (by decide) (by decide)⟩

/-- Helper: the length of a list splits into the parts kept and removed
by a Boolean filter. -/
theorem length_filter_split {α : Type} (p : α → Bool) (l : List α) :
    (l.filter (fun a => !p a)).length + (l.filter p).length = l.length := by
  induction l with
  | nil => rfl
  | cons a t ih =>
    by_cases h : p a = true <;> simp [List.filter_cons, h] <;> omega

/-- C6: the expiry sweep removes exactly the sessions whose idle time
`now - last_access` strictly exceeds the timeout and none with fresher
`last_access` (those survive with their record untouched); it returns
the number removed; and running it again at the same instant with no
intervening operation removes nothing (returns 0 and leaves the store
unchanged). -/
theorem claim_C6 (st : SessionManager) (now : Int)
    (hnd : (st.sessions.map Prod.fst).Nodup) :
    (∀ k sess, lookupSession st.sessions k = some sess →
       (now - sess.last_access > st.session_timeout →
          lookupSession (cleanup_expired_sessions st now).2.sessions k = none)
       ∧ (¬ now - sess.last_access > st.session_timeout →
          lookupSession (cleanup_expired_sessions st now).2.sessions k = some sess))
    ∧ get_session_count st
        = get_session_count (cleanup_expired_sessions st now).2
          + (cleanup_expired_sessions st now).1
    ∧ cleanup_expired_sessions (cleanup_expired_sessions st now).2 now
        = (0, (cleanup_expired_sessions st now).2) := by
  refine ⟨?_, ?_, ?_⟩
  · intro k sess hk
    constructor
    · intro hexp
      apply lookupSession_filter_none st.sessions _ k sess hnd hk
      simp [hexp]
    · intro hexp
      apply lookupSession_filter_some st.sessions _ k sess hk
      simp [hexp]
  · simp only [cleanup_expired_sessions, get_session_count]
    have hfun : (fun p : String × Session => decide (¬ now - p.2.last_access > st.session_timeout))
        = fun p : String × Session => !decide (now - p.2.last_access > st.session_timeout) := by
      funext p
      exact decide_not
    rw [hfun]
    exact (length_filter_split _ st.sessions).symm
  · simp only [cleanup_expired_sessions, Prod.mk.injEq]
    have hfun : (fun p : String × Session => decide (¬ now - p.2.last_access > st.session_timeout))
        = fun p : String × Session => !decide (now - p.2.last_access > st.session_timeout) := by
      funext p
      exact decide_not
    have hdead : (st.sessions.filter
          (fun p => !decide (now - p.2.last_access > st.session_timeout))).filter
          (fun p => decide (now - p.2.last_access > st.session_timeout)) = [] := by
      rw [List.filter_filter]
      have : (fun p : String × Session =>
          decide (now - p.2.last_access > st.session_timeout)
            && !decide (now - p.2.last_access > st.session_timeout)) =
          fun p : String × Session => false := by
        funext p
        exact Bool.and_not_self _
      rw [this]
      exact List.filter_false _
    have hkeep : (st.sessions.filter
          (fun p => !decide (now - p.2.last_access > st.session_timeout))).filter
          (fun p => !decide (now - p.2.last_access > st.session_timeout))
        = st.sessions.filter
            (fun p => !decide (now - p.2.last_access > st.session_timeout)) := by
      rw [List.filter_filter]
      have : (fun p : String × Session =>
          !decide (now - p.2.last_access > st.session_timeout)
            && !decide (now - p.2.last_access > st.session_timeout)) =
          fun p : String × Session => !decide (now - p.2.last_access > st.session_timeout) := by
        funext p
        exact Bool.and_self _
      rw [this]
    constructor
    · simp only [hfun, hdead, List.length_nil]
    · simp only [hfun, hkeep]

/-- Witness for C6 on the two-session store (one idle since time 0, one
since 5000; timeout 3600) swept at time 5000. -/
theorem claim_C6_witness :
    (demoTwo.sessions.map Prod.fst).Nodup
    ∧ ((∀ k sess, lookupSession demoTwo.sessions k = some sess →
         (5000 - sess.last_access > demoTwo.session_timeout →
            lookupSession (cleanup_expired_sessions demoTwo 5000).2.sessions k = none)
         ∧ (¬ 5000 - sess.last_access > demoTwo.session_timeout →
            lookupSession (cleanup_expired_sessions demoTwo 5000).2.sessions k = some sess))
      ∧ get_session_count demoTwo
          = get_session_count (cleanup_expired_sessions demoTwo 5000).2
            + (cleanup_expired_sessions demoTwo 5000).1
      ∧ cleanup_expired_sessions (cleanup_expired_sessions demoTwo 5000).2 5000
          = (0, (cleanup_expired_sessions demoTwo 5000).2)) :=
  ⟨by decide, claim_C6 demoTwo 5000 (by decide)⟩

/-! ## Token and buffer lemmas for the chunked-emission claim -/

theorem mk_reverse_clean (acc : List Char) (hne : ¬ acc.isEmpty = true)
    (hacc : ∀ c ∈ acc, isSpace c = false) : cleanTok (String.mk acc.reverse) := by
  constructor
  · show acc.reverse ≠ []
    simp only [ne_eq, List.reverse_eq_nil_iff]
    simpa [List.isEmpty_iff] using hne
  · intro c hc
    exact hacc c (List.mem_reverse.1 hc)

theorem pySplitAux_clean (cs : List Char) :
    ∀ acc, (∀ c ∈ acc, isSpace c = false) → ∀ w ∈ pySplitAux cs acc, cleanTok w := by
  induction cs with
  | nil =>
    intro acc hacc w hw
    unfold pySplitAux at hw
    by_cases h : acc.isEmpty
    · simp [h] at hw
    · rw [if_neg h] at hw
      simp only [List.mem_singleton] at hw
      subst hw
      exact mk_reverse_clean acc h hacc
  | cons ch cs ih =>
    intro acc hacc w hw
    unfold pySplitAux at hw
    by_cases hsp : isSpace ch = true
    · rw [if_pos hsp] at hw
      by_cases ha : acc.isEmpty
      · rw [if_pos ha] at hw
        exact ih [] (by simp) w hw
      · rw [if_neg ha] at hw
        rcases List.mem_cons.1 hw with rfl | hw2
        · exact mk_reverse_clean acc ha hacc
        · exact ih [] (by simp) w hw2
    · rw [if_neg hsp] at hw
      refine ih (ch :: acc) ?_ w hw
      intro c hc
      rcases List.mem_cons.1 hc with rfl | hc2
      · simpa using hsp
      · exact hacc c hc2

theorem pySplit_clean (s : String) : ∀ w ∈ pySplit s, cleanTok w :=
  pySplitAux_clean s.data [] (by simp)

theorem foldl_join (ws : List String) :
    ∀ acc : String, ws.foldl (fun a w => a ++ w ++ " ") acc = acc ++ joinWords ws := by
  induction ws with
  | nil =>
    intro acc
    show acc = acc ++ ""
    rw [String.append_empty]
  | cons w ws ih =>
    intro acc
    have hjw : joinWords (w :: ws) = (w ++ " ") ++ joinWords ws := by
      show List.foldl _ "" (w :: ws) = _
      rw [List.foldl_cons, ih ("" ++ w ++ " "), String.empty_append]
    rw [List.foldl_cons, ih (acc ++ w ++ " "), hjw]
    simp [String.append_assoc]

theorem joinWords_cons (w : String) (ws : List String) :
    joinWords (w :: ws) = (w ++ " ") ++ joinWords ws := by
  show List.foldl _ "" (w :: ws) = _
  rw [List.foldl_cons, foldl_join ws ("" ++ w ++ " "), String.empty_append]

theorem joinWords_snoc (ws : List String) (w : String) :
    joinWords (ws ++ [w]) = joinWords ws ++ w ++ " " := by
  show (ws ++ [w]).foldl _ "" = _
  rw [List.foldl_append]
  rfl

theorem joinWords_eq_joinTokens (ws : List String) (h : ws ≠ []) :
    joinWords ws = joinTokens ws ++ " " := by
  induction ws with
  | nil => exact absurd rfl h
  | cons w ws ih =>
    cases ws with
    | nil =>
      rw [joinWords_cons]
      have h2 : joinWords ([] : List String) = "" := rfl
      rw [h2, String.append_empty]
      rfl
    | cons x rest =>
      rw [joinWords_cons, ih (by simp)]
      show (w ++ " ") ++ (joinTokens (x :: rest) ++ " ")
        = (w ++ " " ++ joinTokens (x :: rest)) ++ " "
      simp [String.append_assoc]

theorem joinTokens_ends (ws : List String) :
    (∀ w ∈ ws, cleanTok w) → ws ≠ [] →
      (∃ c t, (joinTokens ws).data = c :: t ∧ isSpace c = false)
      ∧ (∃ c t, (joinTokens ws).data.reverse = c :: t ∧ isSpace c = false) := by
  induction ws with
  | nil => intro _ h; exact absurd rfl h
  | cons w ws ih =>
    intro hclean _
    obtain ⟨hne2, hall⟩ := hclean w (by simp)
    cases ws with
    | nil =>
      constructor
      · obtain ⟨c, t, hct⟩ := List.exists_cons_of_ne_nil hne2
        exact ⟨c, t, hct, hall c (by rw [hct]; exact List.mem_cons_self c t)⟩
      · have hrev : w.data.reverse ≠ [] := by
          simpa [List.reverse_eq_nil_iff] using hne2
        obtain ⟨c, t, hct⟩ := List.exists_cons_of_ne_nil hrev
        have hcmem : c ∈ w.data := by
          rw [← List.mem_reverse, hct]
          exact List.mem_cons_self c t
        exact ⟨c, t, hct, hall c hcmem⟩
    | cons x rest =>
      obtain ⟨⟨cf, tf, hctf, hcf⟩, ⟨cb, tb, hctb, hcb⟩⟩ :=
        ih (fun u hu => hclean u (List.mem_cons_of_mem _ hu)) (by simp)
      constructor
      · obtain ⟨c, t, hct⟩ := List.exists_cons_of_ne_nil hne2
        refine ⟨c, t ++ (' ' :: (joinTokens (x :: rest)).data), ?_,
          hall c (by rw [hct]; exact List.mem_cons_self c t)⟩
        show ((w ++ " ") ++ joinTokens (x :: rest)).data = _
        rw [String.data_append, String.data_append, hct]
        simp
      · refine ⟨cb, tb ++ ([' '] ++ w.data.reverse), ?_, hcb⟩
        show ((w ++ " ") ++ joinTokens (x :: rest)).data.reverse = _
        rw [String.data_append, String.data_append, List.reverse_append,
          List.reverse_append, hctb]
        simp

theorem pyStrip_join_space (J : String)
    (hfront : ∃ c t, J.data = c :: t ∧ isSpace c = false)
    (hback : ∃ c t, J.data.reverse = c :: t ∧ isSpace c = false) :
    pyStrip (J ++ " ") = J := by
  obtain ⟨c, t, hct, hc⟩ := hfront
  obtain ⟨c2, t2, hct2, hc2⟩ := hback
  unfold pyStrip
  rw [String.data_append]
  have hsp : (" " : String).data = [' '] := rfl
  rw [hsp]
  have h1 : (J.data ++ [' ']).dropWhile isSpace = J.data ++ [' '] := by
    rw [hct, List.cons_append, List.dropWhile_cons, if_neg (by simp [hc])]
  rw [h1, List.reverse_append]
  have h2 : ([' '] : List Char).reverse = [' '] := rfl
  rw [h2, List.singleton_append, List.dropWhile_cons, if_pos (by decide), hct2,
    List.dropWhile_cons, if_neg (by simp [hc2]), ← hct2, List.reverse_reverse]

theorem emitChunks_quiet (sid : String) (ws : List String) :
    ∀ i n curr st, (is_session_aborted st sid).1 = false →
      emitChunks sid ws i n curr st intfNone = (chunksFrom ws i n curr ++ [Ev.done], st) := by
  induction ws with
  | nil =>
    intro i n curr st h
    simp [emitChunks, chunksFrom]
  | cons w rest ih =>
    intro i n curr st h
    have hst := is_session_aborted_store st sid
    simp only [emitChunks, intfNone, h, Bool.false_eq_true, if_false, hst, chunksFrom]
    rw [ih (i + 1) n (curr ++ w ++ " ") st h]
    simp [List.append_assoc]

theorem chunksFrom_eq (all : List String) (hclean : ∀ w ∈ all, cleanTok w) :
    ∀ ws pre, all = pre ++ ws →
      chunksFrom ws pre.length all.length (joinWords pre)
        = (List.range ws.length).filterMap (fun k =>
            if (pre.length + k + 1) % 5 = 0 ∨ pre.length + k = all.length - 1 then
              some (Ev.content (joinTokens (all.take (pre.length + k + 1))))
            else none) := by
  intro ws
  induction ws with
  | nil =>
    intro pre hall
    simp [chunksFrom]
  | cons w rest ih =>
    intro pre hall
    have hw : all.take (pre.length + 1) = pre ++ [w] := by
      rw [hall, List.take_append_eq_append_take,
        List.take_of_length_le (by simp), Nat.add_sub_cancel_left]
      rfl
    have hcur : joinWords pre ++ w ++ " " = joinWords (pre ++ [w]) :=
      (joinWords_snoc pre w).symm
    have hcleanw : ∀ u ∈ pre ++ [w], cleanTok u := by
      intro u hu
      apply hclean
      rw [hall]
      rcases List.mem_append.1 hu with h | h
      · exact List.mem_append.2 (Or.inl h)
      · simp only [List.mem_singleton] at h
        subst h
        exact List.mem_append.2 (Or.inr (List.mem_cons_self _ _))
    have hstrip : pyStrip (joinWords (pre ++ [w])) = joinTokens (pre ++ [w]) := by
      rw [joinWords_eq_joinTokens _ (by simp)]
      obtain ⟨hf, hb⟩ := joinTokens_ends (pre ++ [w]) hcleanw (by simp)
      exact pyStrip_join_space _ hf hb
    have hIH := ih (pre ++ [w]) (by rw [hall]; simp)
    simp only [List.length_append, List.length_singleton] at hIH
    show (if (pre.length + 1) % 5 = 0 ∨ pre.length = all.length - 1 then
        [Ev.content (pyStrip (joinWords pre ++ w ++ " "))] else [])
      ++ chunksFrom rest (pre.length + 1) all.length (joinWords pre ++ w ++ " ") = _
    rw [hcur, hstrip, hIH]
    rw [show (w :: rest).length = rest.length + 1 from rfl, List.range_succ_eq_map,
      List.filterMap_cons, List.filterMap_map]
    have hfun : ((fun k =>
        if (pre.length + k + 1) % 5 = 0 ∨ pre.length + k = all.length - 1 then
          some (Ev.content (joinTokens (all.take (pre.length + k + 1))))
        else none) ∘ (fun k => k + 1))
        = fun k =>
            if (pre.length + 1 + k + 1) % 5 = 0 ∨ pre.length + 1 + k = all.length - 1 then
              some (Ev.content (joinTokens (all.take (pre.length + 1 + k + 1))))
            else none := by
      funext k
      show (if (pre.length + (k + 1) + 1) % 5 = 0 ∨ pre.length + (k + 1) = all.length - 1 then
          some (Ev.content (joinTokens (all.take (pre.length + (k + 1) + 1))))
        else none) = _
      rw [show pre.length + (k + 1) + 1 = pre.length + 1 + k + 1 from by omega,
        show pre.length + (k + 1) = pre.length + 1 + k from by omega]
    rw [hfun]
    cases hcond : decide ((pre.length + 0 + 1) % 5 = 0 ∨ pre.length + 0 = all.length - 1) with
    | true =>
      have hc0 := of_decide_eq_true hcond
      rw [if_pos hc0]
      have htk : all.take (pre.length + 0 + 1) = pre ++ [w] := by
        rw [show pre.length + 0 + 1 = pre.length + 1 from by omega, hw]
      rw [htk,
        if_pos (show (pre.length + 1) % 5 = 0 ∨ pre.length = all.length - 1 from by omega)]
      rfl
    | false =>
      have hc0 := of_decide_eq_false hcond
      rw [if_neg hc0,
        if_neg (show ¬ ((pre.length + 1) % 5 = 0 ∨ pre.length = all.length - 1) from by omega)]
      rfl

theorem chunksFrom_spec (ws : List String) (hclean : ∀ w ∈ ws, cleanTok w) :
    chunksFrom ws 0 ws.length "" = contentEventsSpec ws := by
  have h := chunksFrom_eq ws hclean ws [] rfl
  simp only [List.length_nil] at h
  have h0 : joinWords ([] : List String) = "" := rfl
  rw [h0] at h
  rw [h]
  unfold contentEventsSpec
  congr 1
  funext k
  rw [show 0 + k + 1 = k + 1 from by omega, show 0 + k = k from by omega]

theorem contentEventsSpec_getLast (ws : List String) (h : ws ≠ []) :
    (contentEventsSpec ws).getLast? = some (Ev.content (joinTokens ws)) := by
  obtain ⟨n, hn⟩ : ∃ n, ws.length = n + 1 := by
    cases hws : ws with
    | nil => exact absurd hws h
    | cons a t => exact ⟨t.length, by simp⟩
  unfold contentEventsSpec
  rw [hn, List.range_succ, List.filterMap_append]
  have htake : ws.take (n + 1) = ws := by
    rw [← hn]
    exact List.take_length ws
  have hlast : List.filterMap (fun i =>
      if (i + 1) % 5 = 0 ∨ i = n + 1 - 1 then
        some (Ev.content (joinTokens (ws.take (i + 1))))
      else none) [n] = [Ev.content (joinTokens ws)] := by
    rw [List.filterMap_cons]
    rw [if_pos (Or.inr (by omega)), htake]
    rfl
  rw [hlast]
  exact List.getLast?_concat _

/-- C1 (amended): a chat turn that reaches chunked emission with `n ≥ 1`
whitespace-delimited tokens and no abort observed emits a content event
carrying the cumulative buffer exactly after every 5th token and
unconditionally after the final token, followed by one `done` event; the
final content event's text equals the answer's tokens re-joined by
single spaces (`joinTokens`), which equals the full answer string
exactly when the answer is already single-space separated with no
leading/trailing whitespace — not in general. -/
theorem claim_C1_amended (st : SessionManager) (rid : Option String) (sid : String)
    (answer : String) (h : pySplit answer ≠ []) :
    (generate_response st rid sid (Except.ok answer) intfNone).1
      = (if rid = some sid then [] else [Ev.session_id sid]) ++ [Ev.start]
        ++ contentEventsSpec (pySplit answer) ++ [Ev.done]
    ∧ (contentEventsSpec (pySplit answer)).getLast?
        = some (Ev.content (joinTokens (pySplit answer))) := by
  constructor
  · have h0 := abortCleared (set_processing_status st sid true).2 sid
    have hquiet := emitChunks_quiet sid (pySplit answer) 0 (pySplit answer).length ""
      (reset_session_abort (set_processing_status st sid true).2 sid).2 h0
    simp only [generate_response, intfNone, h0, Bool.false_eq_true, if_false,
      is_session_aborted_store, finishTurn, hquiet,
      chunksFrom_spec (pySplit answer) (pySplit_clean answer)]
    simp [List.append_assoc]
  · exact contentEventsSpec_getLast _ h

/-- Counterexample to C1 as stated: for the answer `"a  b"` (double
space) the turn's final — and only — content event carries `"a b"`,
which is not the full answer string `"a  b"`. -/
theorem claim_C1_cex :
    (generate_response demoStore (some demoSid) demoSid (Except.ok "a  b") intfNone).1
      = [Ev.start, Ev.content "a b", Ev.done]
    ∧ ("a b" : String) ≠ "a  b" := by
  decide

/-- Witness for C1 (amended): the 12-word answer yields exactly 3
content events (after words 5, 10 and 12) followed by `done`, and its
final content text equals the full answer (which is single-space
separated). -/
theorem claim_C1_witness :
    pySplit answer12 ≠ []
    ∧ ((generate_response demoStore (some demoSid) demoSid (Except.ok answer12) intfNone).1
        = (if (some demoSid : Option String) = some demoSid then []
           else [Ev.session_id demoSid]) ++ [Ev.start]
          ++ contentEventsSpec (pySplit answer12) ++ [Ev.done]
      ∧ (contentEventsSpec (pySplit answer12)).getLast?
          = some (Ev.content (joinTokens (pySplit answer12))))
    ∧ (contentEventsSpec (pySplit answer12)).length = 3
    ∧ joinTokens (pySplit answer12) = answer12 :=
  ⟨by decide,
   claim_C1_amended demoStore (some demoSid) demoSid answer12 (by decide),
   by decide, by decide⟩

end Foodie
